import Mathlib

/-
Shallow embedding of the `django_currency_converter` core of the AIMS
repository:

  * src/django_currency_converter/services/currency_converter.py
      (class CurrencyConverter: get_supported_currencies,
       _update_supported_currencies, _get_currency_name,
       is_currency_supported, get_exchange_rate, _fetch_rate_from_api,
       convert_to_usd)
  * src/django_currency_converter/models.py
      (ExchangeRateCache, SupportedCurrency, TransactionCurrencyMixin)
  * src/django_currency_converter/management/commands/convert_currencies.py
      (Command._process_batch)

Modelling conventions:
  * Python `Decimal` values are modelled as `ℚ`; the lossy
    `float(rate)` / `Decimal(str(...))` round-trip used for the ephemeral
    cache is modelled as the identity on the stored numeric value.
  * Calendar dates and timestamps are modelled as `Int` (a day number);
    `date.today()` is an explicit `today : Int` parameter.
  * The Django ORM tables are association lists inside `ConvState`;
    the Django ephemeral cache (`django.core.cache`) is an association
    list plus an `Option` slot for the supported-currencies key.
  * Every HTTP request made by the process is numbered; the upstream API
    is an oracle `Api : Nat → ApiOutcome` consulted at the current value
    of the `apiCalls` instrumentation counter, which each request
    increments.  `time.sleep` calls are logged in the `sleeps` field.
  * Python exception control flow is made explicit: the broad `except`
    clauses of the source become the corresponding branches of
    `ApiOutcome`, so the embedded functions are total — a `none` result
    models "returns None", never an escaping exception.
-/

/-- Outcome of one HTTP request to the upstream exchange-rate API, as the
source code distinguishes them: `network` is any
`requests.exceptions.RequestException` (timeout, connection error, bad
HTTP status via `raise_for_status`); `malformed` is a body that fails to
parse (`ValueError`/`InvalidOperation`/`KeyError`); `rates r` is a parsed
JSON body whose `"rates"` object holds the pairs `r`. -/
inductive ApiOutcome where
  | network : ApiOutcome
  | malformed : ApiOutcome
  | rates : List (String × ℚ) → ApiOutcome
deriving DecidableEq

/-- The upstream API as an oracle: outcome of the n-th HTTP request. -/
abbrev Api := Nat → ApiOutcome

/-- One row of the `ExchangeRateCache` table (durable rate cache). -/
structure RateRow where
  currency : String
  date : Int
  rate_to_usd : ℚ
deriving DecidableEq

/-- One row of the `SupportedCurrency` table (durable registry). -/
structure CurrencyRow where
  code : String
  name : String
  is_supported : Bool
deriving DecidableEq

/-- Whole-system state threaded through the embedded operations. -/
structure ConvState where
  rateCache : List RateRow
  registry : List CurrencyRow
  memRates : List (String × ℚ)
  memSupported : Option (List String)
  apiCalls : Nat
  sleeps : List Nat
deriving DecidableEq

/-- `CurrencyConverter.DEFAULT_SUPPORTED_CURRENCIES`. -/
def DEFAULT_SUPPORTED_CURRENCIES : List String :=
  [("USD"), ("EUR"), ("GBP"), ("JPY"), ("AUD"), ("CAD"), ("CHF"), ("CNY"), ("SEK"), ("NZD"),
   ("MXN"), ("SGD"), ("HKD"), ("NOK"), ("TRY"), ("RUB"), ("INR"), ("BRL"), ("ZAR"), ("KRW"),
   ("PLN"), ("CZK"), ("HUF"), ("RON"), ("BGN"), ("HRK"), ("DKK"), ("THB"), ("MYR"), ("PHP"),
   ("IDR"), ("VND"), ("EGP"), ("MAD"), ("NGN"), ("KES"), ("GHS"), ("UGX"), ("TZS"), ("ZMW")]

/-- `CurrencyConverter.MAX_RETRIES`. -/
def MAX_RETRIES : Nat := 3

/-- Python's `str.upper()` on the ASCII code points that make up ISO 4217
currency codes: uppercase every character.  (Defined by a structural map
over the character list so that it evaluates by `decide`/`rfl`.) -/
def String.upperA (s : String) : String :=
  ⟨s.data.map Char.toUpper⟩

/-- The name table of `CurrencyConverter._get_currency_name`. -/
def currencyNames : List (String × String) :=
  [(("USD"), ("US Dollar")), (("EUR"), ("Euro")), (("GBP"), ("British Pound")),
   (("JPY"), ("Japanese Yen")), (("AUD"), ("Australian Dollar")), (("CAD"), ("Canadian Dollar")),
   (("CHF"), ("Swiss Franc")), (("CNY"), ("Chinese Yuan")), (("SEK"), ("Swedish Krona")),
   (("NZD"), ("New Zealand Dollar")), (("MXN"), ("Mexican Peso")), (("SGD"), ("Singapore Dollar")),
   (("HKD"), ("Hong Kong Dollar")), (("NOK"), ("Norwegian Krone")), (("TRY"), ("Turkish Lira")),
   (("RUB"), ("Russian Ruble")), (("INR"), ("Indian Rupee")), (("BRL"), ("Brazilian Real")),
   (("ZAR"), ("South African Rand")), (("KRW"), ("South Korean Won")), (("MMK"), ("Myanmar Kyat"))]

/-- `CurrencyConverter._get_currency_name`. -/
def getCurrencyName (code : String) : String :=
  match currencyNames.lookup code.upperA with
  | some n => n
  | none => code.upperA ++ (" Currency")

/-- `SupportedCurrency.get_supported_codes`: codes of rows with
`is_supported=True`. -/
def getSupportedCodes (reg : List CurrencyRow) : List String :=
  (reg.filter (fun row => row.is_supported)).map (fun row => row.code)

/-- `SupportedCurrency.objects.update_or_create(code=code.upper(), ...)`
inside `_update_supported_currencies`: set the row with this code to
supported (updating its name), or append a fresh supported row. -/
def upsertCurrency (reg : List CurrencyRow) (code : String) : List CurrencyRow :=
  if reg.any (fun row => row.code == code.upperA) then
    reg.map (fun row =>
      if row.code == code.upperA then
        { row with is_supported := true, name := getCurrencyName code }
      else row)
  else
    reg ++ [⟨code.upperA, getCurrencyName code, true⟩]

/-- `CurrencyConverter._update_supported_currencies`: mark every row
unsupported, then upsert each code from the list as supported. -/
def updateSupportedCurrencies (reg : List CurrencyRow) (codes : List String) : List CurrencyRow :=
  codes.foldl upsertCurrency (reg.map (fun row => { row with is_supported := false }))

/-- `SupportedCurrency.is_currency_supported` (models.py): look the code up
after uppercasing; `DoesNotExist` is `false`. -/
def registrySupported (reg : List CurrencyRow) (code : String) : Bool :=
  match reg.find? (fun row => row.code == code) with
  | some row => row.is_supported
  | none => false

/-- `SupportedCurrency.is_currency_supported` with the `.upper()`
normalisation applied to the argument, exactly as in models.py. -/
def modelIsCurrencySupported (reg : List CurrencyRow) (code : String) : Bool :=
  registrySupported reg code.upperA

/-- The API-fetch branch of `CurrencyConverter.get_supported_currencies`
(lines 75-103): one HTTP request; on a parsed `rates` body the key list
plus `'USD'` is persisted and cached; on any failure (the broad
`except Exception`) the `DEFAULT_SUPPORTED_CURRENCIES` fallback is
persisted and cached instead.  Nothing is ever raised to the caller. -/
def fetchSupportedCurrencies (api : Api) (s : ConvState) : List String × ConvState :=
  let outcome := api s.apiCalls
  let s1 := { s with apiCalls := s.apiCalls + 1 }
  match outcome with
  | ApiOutcome.rates r =>
      let apiCurrencies := r.map (fun p => p.1) ++ [("USD")]
      (apiCurrencies,
       { s1 with registry := updateSupportedCurrencies s1.registry apiCurrencies,
                 memSupported := some apiCurrencies })
  | _ =>
      (DEFAULT_SUPPORTED_CURRENCIES,
       { s1 with registry := updateSupportedCurrencies s1.registry DEFAULT_SUPPORTED_CURRENCIES,
                 memSupported := some DEFAULT_SUPPORTED_CURRENCIES })

/-- The `refresh=False` path of `get_supported_currencies`: ephemeral
cache first (`if cached_currencies:` — a missing key or an empty list is
falsy), then the durable registry (`if db_currencies:`), else fetch. -/
def getSupportedCurrenciesNoRefresh (api : Api) (s : ConvState) : List String × ConvState :=
  let cached := s.memSupported.getD []
  if cached ≠ [] then (cached, s)
  else
    let db := getSupportedCodes s.registry
    if db ≠ [] then (db, { s with memSupported := some db })
    else fetchSupportedCurrencies api s

/-- `CurrencyConverter.get_supported_currencies`. -/
def getSupportedCurrencies (api : Api) (refresh : Bool) (s : ConvState) : List String × ConvState :=
  if refresh then fetchSupportedCurrencies api s
  else getSupportedCurrenciesNoRefresh api s

/-- `CurrencyConverter.is_currency_supported`: `'USD'` (any letter case)
short-circuits to `true` with no lookup; otherwise membership of the
uppercased code in `get_supported_currencies()`. -/
def isCurrencySupported (api : Api) (code : String) (s : ConvState) : Bool × ConvState :=
  if code.upperA = ("USD") then (true, s)
  else
    let res := getSupportedCurrencies api false s
    (res.1.contains code.upperA, res.2)

/-- `ExchangeRateCache.objects.get(currency=.., date=..)`: exact-match
lookup in the durable rate cache; `DoesNotExist` is `none`. -/
def lookupRate (cache : List RateRow) (c : String) (d : Int) : Option ℚ :=
  match cache.find? (fun row => row.currency == c && row.date == d) with
  | some row => some row.rate_to_usd
  | none => none

/-- `ExchangeRateCache.objects.update_or_create(currency=.., date=..,
defaults={'rate_to_usd': rate})`. -/
def upsertRate (cache : List RateRow) (c : String) (d : Int) (r : ℚ) : List RateRow :=
  if cache.any (fun row => row.currency == c && row.date == d) then
    cache.map (fun row =>
      if row.currency == c && row.date == d then { row with rate_to_usd := r } else row)
  else
    cache ++ [⟨c, d, r⟩]

/-- The ephemeral cache key `f"{CACHE_PREFIX}_{from}_{to}_{date}"`. -/
def memKey (f t : String) (d : Int) : String :=
  ("exchange_rate_") ++ f ++ ("_") ++ t ++ ("_") ++ toString d

/-- `cache.set(key, value)` on the rate portion of the ephemeral cache. -/
def cacheSet (m : List (String × ℚ)) (k : String) (v : ℚ) : List (String × ℚ) :=
  (k, v) :: m.filter (fun p => p.1 != k)

/-- The retry loop of `CurrencyConverter._fetch_rate_from_api`
(lines 198-251).  `attempt` is the Python loop variable; `fuel` is the
number of iterations left (`MAX_RETRIES - attempt`), the structurally
decreasing argument.  A `network` outcome sleeps `2 ** attempt` seconds
when `attempt < MAX_RETRIES - 1` and continues; a `malformed` outcome or
a parsed body whose `rates` lack the target currency returns `none` at
once; a usable rate is written to the ephemeral cache and upserted into
the durable cache before being returned.  Falling off the loop returns
`none` (line 251). -/
def fetchLoop (api : Api) (f t : String) (d : Int) :
    Nat → Nat → ConvState → Option ℚ × ConvState
  | _, 0, s => (none, s)
  | attempt, fuel + 1, s =>
    let outcome := api s.apiCalls
    let s1 := { s with apiCalls := s.apiCalls + 1 }
    match outcome with
    | ApiOutcome.network =>
        let s2 := if attempt < MAX_RETRIES - 1 then
          { s1 with sleeps := s1.sleeps ++ [2 ^ attempt] } else s1
        fetchLoop api f t d (attempt + 1) fuel s2
    | ApiOutcome.malformed => (none, s1)
    | ApiOutcome.rates r =>
        match r.lookup t with
        | none => (none, s1)
        | some rate =>
            (some rate,
             { s1 with memRates := cacheSet s1.memRates (memKey f t d) rate,
                       rateCache := upsertRate s1.rateCache f d rate })

/-- `CurrencyConverter._fetch_rate_from_api`: a date strictly after
`today` is rejected before any network activity (lines 190-193);
otherwise the retry loop runs with `MAX_RETRIES` iterations. -/
def fetchRateFromApi (api : Api) (today : Int) (f t : String) (d : Int)
    (s : ConvState) : Option ℚ × ConvState :=
  if d > today then (none, s)
  else fetchLoop api f t d 0 MAX_RETRIES s

/-- `CurrencyConverter.get_exchange_rate`: uppercase both codes; equal
codes yield `1.0` at once; an unsupported source currency yields `none`;
then durable cache, then ephemeral cache (`if cached_rate:` — a stored
`0.0` is falsy and falls through), then the upstream fetch. -/
def getExchangeRate (api : Api) (today : Int) (fromCur toCur : String) (d : Int)
    (s : ConvState) : Option ℚ × ConvState :=
  let f := fromCur.upperA
  let t := toCur.upperA
  if f = t then (some 1, s)
  else
    let sup := isCurrencySupported api f s
    if sup.1 = false then (none, sup.2)
    else
      match lookupRate sup.2.rateCache f d with
      | some r => (some r, sup.2)
      | none =>
        match sup.2.memRates.lookup (memKey f t d) with
        | some r =>
            if r ≠ 0 then (some r, sup.2)
            else fetchRateFromApi api today f t d sup.2
        | none => fetchRateFromApi api today f t d sup.2

/-- Round a rational to the nearest integer, ties to the even integer —
the `ROUND_HALF_EVEN` default of Python's decimal context. -/
def roundHalfEven (x : ℚ) : ℤ :=
  let f := ⌊x⌋
  if x - f < 1 / 2 then f
  else if x - f > 1 / 2 then f + 1
  else if f % 2 = 0 then f else f + 1

/-- `Decimal.quantize(Decimal('0.01'))` under the default context:
round to 2 decimal places, half to even. -/
def quantize2 (x : ℚ) : ℚ :=
  (roundHalfEven (x * 100) : ℚ) / 100

/-- `CurrencyConverter.convert_to_usd`.  `if not amount or amount <= 0`
collapses to `amount ≤ 0` on numeric amounts (`not amount` is truth for
`0`).  A `USD` amount is returned unchanged with rate `1.0`; otherwise
the resolver is consulted and the product is quantized to two decimal
places.  (`InvalidOperation`/`OverflowError` cannot arise over `ℚ`, so
the final `except` branch is unreachable in the model.) -/
def convertToUsd (api : Api) (today : Int) (amount : ℚ) (currency : String)
    (d : Int) (s : ConvState) : (Option ℚ × Option ℚ) × ConvState :=
  if amount ≤ 0 then ((none, none), s)
  else
    let c := currency.upperA
    if c = ("USD") then ((some amount, some 1), s)
    else
      let res := getExchangeRate api today c ("USD") d s
      match res.1 with
      | none => ((none, none), res.2)
      | some rate => ((some (quantize2 (amount * rate)), some rate), res.2)

/-- The conversion-state fields of a transaction record
(`TransactionCurrencyMixin` plus the fields listed in models.py). -/
structure Txn where
  id : Nat
  value : ℚ
  currency : String
  transaction_date : Int
  value_usd : Option ℚ
  usd_convertible : Bool
  exchange_rate_used : Option ℚ
  usd_conversion_date : Option Int
deriving DecidableEq

/-- `TransactionCurrencyMixin.mark_unconvertible`: set
`usd_convertible=False`, stamp `usd_conversion_date=now`, persist only
those two fields. -/
def markUnconvertible (now : Int) (txn : Txn) : Txn :=
  { txn with usd_convertible := false, usd_conversion_date := some now }

/-- `TransactionCurrencyMixin.set_usd_value`: set `value_usd`,
`exchange_rate_used`, stamp the timestamp and set
`usd_convertible=True`, persisting those four fields. -/
def setUsdValue (now : Int) (txn : Txn) (usd_amount rate : ℚ) : Txn :=
  { txn with value_usd := some usd_amount,
             exchange_rate_used := some rate,
             usd_conversion_date := some now,
             usd_convertible := true }

/-- `TransactionCurrencyMixin.needs_usd_conversion`. -/
def needsUsdConversion (txn : Txn) : Bool :=
  txn.value_usd == none && txn.currency != ("USD") && decide (txn.value > 0)

/-- Per-record outcome of `Command._convert_transaction`, which returns
the string `'converted'` or `'skipped'` (or raises). -/
inductive ConvResult where
  | converted : ConvResult
  | skipped : ConvResult
deriving DecidableEq

/-- `Command._process_batch` (convert_currencies.py lines 220-243): loop
over the batch; each record's processing either returns an outcome or
raises, and the bare `except Exception` inside the loop turns a raise
into `errors += 1` and moves on to the next record.  The per-record body
is a parameter, as in the source it is `self._convert_transaction`,
whose exceptions are exactly what the handler catches.  Returns
`(converted, skipped, errors)`.  `batchStep` is one iteration of the
loop body: the `try`/`except` around `_convert_transaction` and the
counter updates. -/
def batchStep (convertOne : Txn → Except String ConvResult) (acc : Nat × Nat × Nat)
    (txn : Txn) : Nat × Nat × Nat :=
  match convertOne txn with
  | Except.ok ConvResult.converted => (acc.1 + 1, acc.2.1, acc.2.2)
  | Except.ok ConvResult.skipped => (acc.1, acc.2.1 + 1, acc.2.2)
  | Except.error _ => (acc.1, acc.2.1, acc.2.2 + 1)

/-- `Command._process_batch`: fold the loop body over the batch starting
from zeroed counters. -/
def processBatch (convertOne : Txn → Except String ConvResult) (txns : List Txn) :
    Nat × Nat × Nat :=
  txns.foldl (batchStep convertOne) (0, 0, 0)

/-- Componentwise sum of two `(converted, skipped, errors)` triples. -/
def addCounts (a b : Nat × Nat × Nat) : Nat × Nat × Nat :=
  (a.1 + b.1, a.2.1 + b.2.1, a.2.2 + b.2.2)

/- ------------------------------------------------------------------ -/
/- Helper lemmas                                                      -/
/- ------------------------------------------------------------------ -/

lemma addCounts_zero (a : Nat × Nat × Nat) : addCounts a (0, 0, 0) = a := by
  simp [addCounts]

lemma addCounts_assoc (a b c : Nat × Nat × Nat) :
    addCounts (addCounts a b) c = addCounts a (addCounts b c) := by
  simp [addCounts, Nat.add_assoc]

lemma batchStep_shift (f : Txn → Except String ConvResult) (a b : Nat × Nat × Nat) (x : Txn) :
    batchStep f (addCounts a b) x = addCounts a (batchStep f b x) := by
  rcases hx : f x with e | v
  · simp [batchStep, hx, addCounts, Nat.add_assoc]
  · rcases v <;> simp [batchStep, hx, addCounts, Nat.add_assoc]

lemma foldl_batchStep_shift (f : Txn → Except String ConvResult) :
    ∀ (l : List Txn) (a : Nat × Nat × Nat),
      l.foldl (batchStep f) a = addCounts a (processBatch f l) := by
  intro l
  induction l with
  | nil =>
    intro a
    show a = addCounts a (processBatch f [])
    exact (addCounts_zero a).symm
  | cons x rest ih =>
    intro a
    have hstep : batchStep f a x = addCounts a (batchStep f (0, 0, 0) x) := by
      have := batchStep_shift f a (0, 0, 0) x
      rw [addCounts_zero] at this
      exact this
    calc (x :: rest).foldl (batchStep f) a
        = rest.foldl (batchStep f) (batchStep f a x) := rfl
      _ = addCounts (batchStep f a x) (processBatch f rest) := ih _
      _ = addCounts (addCounts a (batchStep f (0, 0, 0) x)) (processBatch f rest) := by
            rw [hstep]
      _ = addCounts a (addCounts (batchStep f (0, 0, 0) x) (processBatch f rest)) :=
            addCounts_assoc _ _ _
      _ = addCounts a ((x :: rest).foldl (batchStep f) (0, 0, 0)) := by
            rw [show (x :: rest).foldl (batchStep f) (0, 0, 0)
                  = rest.foldl (batchStep f) (batchStep f (0, 0, 0) x) from rfl, ih]
      _ = addCounts a (processBatch f (x :: rest)) := rfl

/- ------------------------------------------------------------------ -/
/- Claim theorems                                                     -/
/- ------------------------------------------------------------------ -/

/-- C8: during batch conversion, an exception raised while processing one
record is caught inside the per-record loop, counted into the errors
counter, and the remaining records are still processed: prepending a
record whose processing raises only increments `errors` on top of the
result for the rest of the batch, and the batch counters are additive
over concatenation, so a failing record never aborts the batch or
affects the processing of later records. -/
theorem c8_batch_error_isolation (f : Txn → Except String ConvResult) :
    (∀ (txn : Txn) (l : List Txn) (e : String), f txn = Except.error e →
      processBatch f (txn :: l)
        = ((processBatch f l).1, (processBatch f l).2.1, (processBatch f l).2.2 + 1))
    ∧ (∀ l1 l2 : List Txn,
        processBatch f (l1 ++ l2) = addCounts (processBatch f l1) (processBatch f l2)) := by
  constructor
  · intro txn l e he
    have h1 : processBatch f (txn :: l) = l.foldl (batchStep f) (batchStep f (0, 0, 0) txn) :=
      rfl
    have h2 : batchStep f (0, 0, 0) txn = (0, 0, 1) := by simp [batchStep, he]
    rw [h1, h2, foldl_batchStep_shift]
    simp [addCounts, Nat.add_comm]
  · intro l1 l2
    have h1 : processBatch f (l1 ++ l2)
        = l2.foldl (batchStep f) (l1.foldl (batchStep f) (0, 0, 0)) := by
      simp [processBatch, List.foldl_append]
    rw [h1, foldl_batchStep_shift]
    rfl

/-- Witness for C8 at a concrete failing record followed by a succeeding
one: the failure is counted and the later record is still converted. -/
theorem c8_witness :
    processBatch
        (fun txn => if txn.id = 1 then Except.error ("boom") else Except.ok ConvResult.converted)
        (⟨1, 5, ("EUR"), 0, none, true, none, none⟩ :: [⟨2, 7, ("EUR"), 0, none, true, none, none⟩])
      = ((processBatch
            (fun txn => if txn.id = 1 then Except.error ("boom") else Except.ok ConvResult.converted)
            [⟨2, 7, ("EUR"), 0, none, true, none, none⟩]).1,
         (processBatch
            (fun txn => if txn.id = 1 then Except.error ("boom") else Except.ok ConvResult.converted)
            [⟨2, 7, ("EUR"), 0, none, true, none, none⟩]).2.1,
         (processBatch
            (fun txn => if txn.id = 1 then Except.error ("boom") else Except.ok ConvResult.converted)
            [⟨2, 7, ("EUR"), 0, none, true, none, none⟩]).2.2 + 1) :=
  (c8_batch_error_isolation _).1 _ _ ("boom") rfl

/-- C9: `mark_unconvertible` sets `usd_convertible` to false and stamps
`usd_conversion_date`, leaving every other field (`value_usd`,
`exchange_rate_used`, `value`, `currency`, `id`, `transaction_date`)
unchanged; it is idempotent up to the timestamp; and a subsequent
`set_usd_value` sets `value_usd` and `exchange_rate_used` and flips
`usd_convertible` back to true. -/
theorem c9_state_machine (t1 t2 : Int) (txn : Txn) (a r : ℚ) :
    ((markUnconvertible t1 txn).usd_convertible = false)
    ∧ ((markUnconvertible t1 txn).usd_conversion_date = some t1)
    ∧ ((markUnconvertible t1 txn).value_usd = txn.value_usd)
    ∧ ((markUnconvertible t1 txn).exchange_rate_used = txn.exchange_rate_used)
    ∧ ((markUnconvertible t1 txn).value = txn.value)
    ∧ ((markUnconvertible t1 txn).currency = txn.currency)
    ∧ ((markUnconvertible t1 txn).id = txn.id)
    ∧ ((markUnconvertible t1 txn).transaction_date = txn.transaction_date)
    ∧ (markUnconvertible t2 (markUnconvertible t1 txn) = markUnconvertible t2 txn)
    ∧ ((setUsdValue t2 (markUnconvertible t1 txn) a r).value_usd = some a)
    ∧ ((setUsdValue t2 (markUnconvertible t1 txn) a r).exchange_rate_used = some r)
    ∧ ((setUsdValue t2 (markUnconvertible t1 txn) a r).usd_convertible = true) := by
  refine ⟨rfl, rfl, rfl, rfl, rfl, rfl, rfl, rfl, rfl, rfl, rfl, rfl⟩

lemma fetchLoop_zero (api : Api) (f t : String) (d : Int) (attempt : Nat) (s : ConvState) :
    fetchLoop api f t d attempt 0 s = (none, s) := rfl

lemma fetchLoop_net (api : Api) (f t : String) (d : Int) (attempt fuel : Nat) (s : ConvState)
    (h : api s.apiCalls = ApiOutcome.network) :
    fetchLoop api f t d attempt (fuel + 1) s
      = fetchLoop api f t d (attempt + 1) fuel
          (if attempt < MAX_RETRIES - 1 then
            { s with apiCalls := s.apiCalls + 1, sleeps := s.sleeps ++ [2 ^ attempt] }
          else { s with apiCalls := s.apiCalls + 1 }) := by
  simp only [fetchLoop, h]

lemma fetchLoop_malformed (api : Api) (f t : String) (d : Int) (attempt fuel : Nat)
    (s : ConvState) (h : api s.apiCalls = ApiOutcome.malformed) :
    fetchLoop api f t d attempt (fuel + 1) s = (none, { s with apiCalls := s.apiCalls + 1 }) := by
  simp only [fetchLoop, h]

lemma fetchLoop_rates_missing (api : Api) (f t : String) (d : Int) (attempt fuel : Nat)
    (s : ConvState) (r : List (String × ℚ)) (h : api s.apiCalls = ApiOutcome.rates r)
    (hl : r.lookup t = none) :
    fetchLoop api f t d attempt (fuel + 1) s = (none, { s with apiCalls := s.apiCalls + 1 }) := by
  simp only [fetchLoop, h, hl]

lemma fetchLoop_rates_hit (api : Api) (f t : String) (d : Int) (attempt fuel : Nat)
    (s : ConvState) (r : List (String × ℚ)) (q : ℚ) (h : api s.apiCalls = ApiOutcome.rates r)
    (hl : r.lookup t = some q) :
    fetchLoop api f t d attempt (fuel + 1) s
      = (some q,
         { s with apiCalls := s.apiCalls + 1,
                  memRates := cacheSet s.memRates (memKey f t d) q,
                  rateCache := upsertRate s.rateCache f d q }) := by
  simp only [fetchLoop, h, hl]

lemma fetchLoop_apiCalls_le (api : Api) (f t : String) (d : Int) :
    ∀ (fuel attempt : Nat) (s : ConvState),
      (fetchLoop api f t d attempt fuel s).2.apiCalls ≤ s.apiCalls + fuel := by
  intro fuel
  induction fuel with
  | zero => intro attempt s; simp [fetchLoop_zero]
  | succ n ih =>
    intro attempt s
    rcases h : api s.apiCalls with _ | _ | r
    · rw [fetchLoop_net api f t d attempt n s h]
      by_cases hc : attempt < MAX_RETRIES - 1
      · rw [if_pos hc]
        have hb := ih (attempt + 1)
          { s with apiCalls := s.apiCalls + 1, sleeps := s.sleeps ++ [2 ^ attempt] }
        simp only at hb
        omega
      · rw [if_neg hc]
        have hb := ih (attempt + 1) { s with apiCalls := s.apiCalls + 1 }
        simp only at hb
        omega
    · rw [fetchLoop_malformed api f t d attempt n s h]
      show s.apiCalls + 1 ≤ s.apiCalls + (n + 1)
      omega
    · rcases hl : r.lookup t with _ | q
      · rw [fetchLoop_rates_missing api f t d attempt n s r h hl]
        show s.apiCalls + 1 ≤ s.apiCalls + (n + 1)
        omega
      · rw [fetchLoop_rates_hit api f t d attempt n s r q h hl]
        show s.apiCalls + 1 ≤ s.apiCalls + (n + 1)
        omega

/-- C2: for every past-or-today date and every sequence of upstream
responses, `_fetch_rate_from_api` makes at most `MAX_RETRIES = 3`
attempts (the API-call counter grows by at most 3); when the first two
attempts fail at the network level it sleeps `2 ^ 0` then `2 ^ 1` seconds
(exponential backoff `2 ** attempt`) and retries; if the third attempt
also fails at the network level it returns `none` — the embedded
function is total, so no exception reaches the caller — and if the
upstream fails twice then succeeds, it returns the successful rate after
exactly 3 calls. -/
theorem c2_retry (api : Api) (today : Int) (f t : String) (d : Int) (s : ConvState) :
    ((fetchRateFromApi api today f t d s).2.apiCalls ≤ s.apiCalls + MAX_RETRIES)
    ∧ (d ≤ today → api s.apiCalls = ApiOutcome.network →
        api (s.apiCalls + 1) = ApiOutcome.network →
        ((∀ (r : List (String × ℚ)) (q : ℚ),
            api (s.apiCalls + 2) = ApiOutcome.rates r → r.lookup t = some q →
            (fetchRateFromApi api today f t d s).1 = some q
            ∧ (fetchRateFromApi api today f t d s).2.apiCalls = s.apiCalls + 3
            ∧ (fetchRateFromApi api today f t d s).2.sleeps = s.sleeps ++ [2 ^ 0, 2 ^ 1])
         ∧ (api (s.apiCalls + 2) = ApiOutcome.network →
            (fetchRateFromApi api today f t d s).1 = none
            ∧ (fetchRateFromApi api today f t d s).2.apiCalls = s.apiCalls + 3
            ∧ (fetchRateFromApi api today f t d s).2.sleeps = s.sleeps ++ [2 ^ 0, 2 ^ 1]
            ∧ (fetchRateFromApi api today f t d s).2.rateCache = s.rateCache))) := by
  constructor
  · by_cases hf : d > today
    · have e : fetchRateFromApi api today f t d s = (none, s) := by
        simp [fetchRateFromApi, hf]
      rw [e]
      show s.apiCalls ≤ s.apiCalls + MAX_RETRIES
      omega
    · have e : fetchRateFromApi api today f t d s = fetchLoop api f t d 0 MAX_RETRIES s := by
        simp [fetchRateFromApi, hf]
      rw [e]
      exact fetchLoop_apiCalls_le api f t d MAX_RETRIES 0 s
  · intro hd h0 h1
    have e : fetchRateFromApi api today f t d s = fetchLoop api f t d 0 MAX_RETRIES s := by
      simp [fetchRateFromApi, not_lt.2 hd]
    have e1 : fetchLoop api f t d 0 MAX_RETRIES s
        = fetchLoop api f t d (0 + 1) 2
            { s with apiCalls := s.apiCalls + 1, sleeps := s.sleeps ++ [2 ^ 0] } :=
      fetchLoop_net api f t d 0 2 s h0
    have e2 : fetchLoop api f t d (0 + 1) 2
          { s with apiCalls := s.apiCalls + 1, sleeps := s.sleeps ++ [2 ^ 0] }
        = fetchLoop api f t d (0 + 1 + 1) 1
            { s with apiCalls := s.apiCalls + 1 + 1,
                     sleeps := (s.sleeps ++ [2 ^ 0]) ++ [2 ^ (0 + 1)] } :=
      fetchLoop_net api f t d (0 + 1) 1
        { s with apiCalls := s.apiCalls + 1, sleeps := s.sleeps ++ [2 ^ 0] } h1
    constructor
    · intro r q h2 hl
      have e3 : fetchLoop api f t d (0 + 1 + 1) 1
            { s with apiCalls := s.apiCalls + 1 + 1,
                     sleeps := (s.sleeps ++ [2 ^ 0]) ++ [2 ^ (0 + 1)] }
          = (some q,
             { s with apiCalls := s.apiCalls + 1 + 1 + 1,
                      sleeps := (s.sleeps ++ [2 ^ 0]) ++ [2 ^ (0 + 1)],
                      memRates := cacheSet s.memRates (memKey f t d) q,
                      rateCache := upsertRate s.rateCache f d q }) :=
        fetchLoop_rates_hit api f t d (0 + 1 + 1) 0
          { s with apiCalls := s.apiCalls + 1 + 1,
                   sleeps := (s.sleeps ++ [2 ^ 0]) ++ [2 ^ (0 + 1)] } r q h2 hl
      rw [e, e1, e2, e3]
      refine ⟨rfl, by show s.apiCalls + 1 + 1 + 1 = s.apiCalls + 3; omega, ?_⟩
      show (s.sleeps ++ [2 ^ 0]) ++ [2 ^ (0 + 1)] = s.sleeps ++ [2 ^ 0, 2 ^ 1]
      simp
    · intro h2
      have e3 : fetchLoop api f t d (0 + 1 + 1) 1
            { s with apiCalls := s.apiCalls + 1 + 1,
                     sleeps := (s.sleeps ++ [2 ^ 0]) ++ [2 ^ (0 + 1)] }
          = fetchLoop api f t d (0 + 1 + 1 + 1) 0
              { s with apiCalls := s.apiCalls + 1 + 1 + 1,
                       sleeps := (s.sleeps ++ [2 ^ 0]) ++ [2 ^ (0 + 1)] } := by
        have hstep := fetchLoop_net api f t d (0 + 1 + 1) 0
          { s with apiCalls := s.apiCalls + 1 + 1,
                   sleeps := (s.sleeps ++ [2 ^ 0]) ++ [2 ^ (0 + 1)] } h2
        rw [if_neg (by norm_num [MAX_RETRIES])] at hstep
        exact hstep
      rw [e, e1, e2, e3, fetchLoop_zero]
      refine ⟨rfl, by show s.apiCalls + 1 + 1 + 1 = s.apiCalls + 3; omega, ?_, rfl⟩
      show (s.sleeps ++ [2 ^ 0]) ++ [2 ^ (0 + 1)] = s.sleeps ++ [2 ^ 0, 2 ^ 1]
      simp

/-- C3: on any attempt `k` (after `k` network-level failures), a
malformed response body or a parsed body missing the expected rate field
for the target currency makes `_fetch_rate_from_api` return `none`
immediately: exactly `k + 1` HTTP requests happen, so no further
attempts are made — only network-level faults are retried. -/
theorem c3_terminal (api : Api) (today : Int) (f t : String) (d : Int) (s : ConvState)
    (k : Nat) (hd : d ≤ today) (hk : k < MAX_RETRIES)
    (hnet : ∀ i, i < k → api (s.apiCalls + i) = ApiOutcome.network)
    (hterm : api (s.apiCalls + k) = ApiOutcome.malformed
      ∨ ∃ r, api (s.apiCalls + k) = ApiOutcome.rates r ∧ r.lookup t = none) :
    (fetchRateFromApi api today f t d s).1 = none
    ∧ (fetchRateFromApi api today f t d s).2.apiCalls = s.apiCalls + k + 1 := by
  have e : fetchRateFromApi api today f t d s = fetchLoop api f t d 0 MAX_RETRIES s := by
    simp [fetchRateFromApi, not_lt.2 hd]
  have hk3 : k < 3 := hk
  interval_cases k
  · rcases hterm with hm | ⟨r, hr, hl⟩
    · have e0 : fetchLoop api f t d 0 MAX_RETRIES s
          = (none, { s with apiCalls := s.apiCalls + 1 }) :=
        fetchLoop_malformed api f t d 0 2 s hm
      rw [e, e0]
      exact ⟨rfl, rfl⟩
    · have e0 : fetchLoop api f t d 0 MAX_RETRIES s
          = (none, { s with apiCalls := s.apiCalls + 1 }) :=
        fetchLoop_rates_missing api f t d 0 2 s r hr hl
      rw [e, e0]
      exact ⟨rfl, rfl⟩
  · have e1 : fetchLoop api f t d 0 MAX_RETRIES s
        = fetchLoop api f t d (0 + 1) 2
            { s with apiCalls := s.apiCalls + 1, sleeps := s.sleeps ++ [2 ^ 0] } :=
      fetchLoop_net api f t d 0 2 s (hnet 0 (by omega))
    rcases hterm with hm | ⟨r, hr, hl⟩
    · have e0 : fetchLoop api f t d (0 + 1) 2
            { s with apiCalls := s.apiCalls + 1, sleeps := s.sleeps ++ [2 ^ 0] }
          = (none,
             { s with apiCalls := s.apiCalls + 1 + 1, sleeps := s.sleeps ++ [2 ^ 0] }) :=
        fetchLoop_malformed api f t d (0 + 1) 1
          { s with apiCalls := s.apiCalls + 1, sleeps := s.sleeps ++ [2 ^ 0] } hm
      rw [e, e1, e0]
      exact ⟨rfl, rfl⟩
    · have e0 : fetchLoop api f t d (0 + 1) 2
            { s with apiCalls := s.apiCalls + 1, sleeps := s.sleeps ++ [2 ^ 0] }
          = (none,
             { s with apiCalls := s.apiCalls + 1 + 1, sleeps := s.sleeps ++ [2 ^ 0] }) :=
        fetchLoop_rates_missing api f t d (0 + 1) 1
          { s with apiCalls := s.apiCalls + 1, sleeps := s.sleeps ++ [2 ^ 0] } r hr hl
      rw [e, e1, e0]
      exact ⟨rfl, rfl⟩
  · have e1 : fetchLoop api f t d 0 MAX_RETRIES s
        = fetchLoop api f t d (0 + 1) 2
            { s with apiCalls := s.apiCalls + 1, sleeps := s.sleeps ++ [2 ^ 0] } :=
      fetchLoop_net api f t d 0 2 s (hnet 0 (by omega))
    have e2 : fetchLoop api f t d (0 + 1) 2
          { s with apiCalls := s.apiCalls + 1, sleeps := s.sleeps ++ [2 ^ 0] }
        = fetchLoop api f t d (0 + 1 + 1) 1
            { s with apiCalls := s.apiCalls + 1 + 1,
                     sleeps := (s.sleeps ++ [2 ^ 0]) ++ [2 ^ (0 + 1)] } :=
      fetchLoop_net api f t d (0 + 1) 1
        { s with apiCalls := s.apiCalls + 1, sleeps := s.sleeps ++ [2 ^ 0] }
        (hnet 1 (by omega))
    rcases hterm with hm | ⟨r, hr, hl⟩
    · have e0 : fetchLoop api f t d (0 + 1 + 1) 1
            { s with apiCalls := s.apiCalls + 1 + 1,
                     sleeps := (s.sleeps ++ [2 ^ 0]) ++ [2 ^ (0 + 1)] }
          = (none,
             { s with apiCalls := s.apiCalls + 1 + 1 + 1,
                      sleeps := (s.sleeps ++ [2 ^ 0]) ++ [2 ^ (0 + 1)] }) :=
        fetchLoop_malformed api f t d (0 + 1 + 1) 0
          { s with apiCalls := s.apiCalls + 1 + 1,
                   sleeps := (s.sleeps ++ [2 ^ 0]) ++ [2 ^ (0 + 1)] } hm
      rw [e, e1, e2, e0]
      exact ⟨rfl, rfl⟩
    · have e0 : fetchLoop api f t d (0 + 1 + 1) 1
            { s with apiCalls := s.apiCalls + 1 + 1,
                     sleeps := (s.sleeps ++ [2 ^ 0]) ++ [2 ^ (0 + 1)] }
          = (none,
             { s with apiCalls := s.apiCalls + 1 + 1 + 1,
                      sleeps := (s.sleeps ++ [2 ^ 0]) ++ [2 ^ (0 + 1)] }) :=
        fetchLoop_rates_missing api f t d (0 + 1 + 1) 0
          { s with apiCalls := s.apiCalls + 1 + 1,
                   sleeps := (s.sleeps ++ [2 ^ 0]) ++ [2 ^ (0 + 1)] } r hr hl
      rw [e, e1, e2, e0]
      exact ⟨rfl, rfl⟩

lemma upperA_USD : ("USD" : String).upperA = ("USD") := rfl

lemma getSupportedCurrencies_memHit (api : Api) (s : ConvState) (l : List String)
    (hmem : s.memSupported = some l) (hne : l ≠ []) :
    getSupportedCurrencies api false s = (l, s) := by
  simp [getSupportedCurrencies, getSupportedCurrenciesNoRefresh, hmem, hne]

lemma isCurrencySupported_memHit (api : Api) (c : String) (s : ConvState) (l : List String)
    (hU : c.upperA = c) (hmem : s.memSupported = some l) (hne : l ≠ []) (hin : c ∈ l) :
    isCurrencySupported api c s = (true, s) := by
  by_cases hUSD : c = ("USD")
  · simp [isCurrencySupported, hU, hUSD, upperA_USD]
  · simp [isCurrencySupported, hU, hUSD,
      getSupportedCurrencies_memHit api s l hmem hne, hin]

lemma getExchangeRate_durableHit (api : Api) (today : Int) (fc : String) (d : Int)
    (s : ConvState) (l : List String) (r : ℚ)
    (hU : fc.upperA = fc) (hne : fc ≠ ("USD")) (hmem : s.memSupported = some l)
    (hlne : l ≠ []) (hin : fc ∈ l) (hr : lookupRate s.rateCache fc d = some r) :
    getExchangeRate api today fc ("USD") d s = (some r, s) := by
  simp [getExchangeRate, hU, upperA_USD, hne,
    isCurrencySupported_memHit api fc s l hU hmem hlne hin, hr]

lemma getExchangeRate_memRateHit (api : Api) (today : Int) (fc : String) (d : Int)
    (s : ConvState) (l : List String) (q : ℚ)
    (hU : fc.upperA = fc) (hne : fc ≠ ("USD")) (hmem : s.memSupported = some l)
    (hlne : l ≠ []) (hin : fc ∈ l) (hr : lookupRate s.rateCache fc d = none)
    (hq : s.memRates.lookup (memKey fc ("USD") d) = some q) (hq0 : q ≠ 0) :
    getExchangeRate api today fc ("USD") d s = (some q, s) := by
  simp [getExchangeRate, hU, upperA_USD, hne,
    isCurrencySupported_memHit api fc s l hU hmem hlne hin, hr, hq, hq0]

lemma getExchangeRate_bothMiss (api : Api) (today : Int) (fc : String) (d : Int)
    (s : ConvState) (l : List String)
    (hU : fc.upperA = fc) (hne : fc ≠ ("USD")) (hmem : s.memSupported = some l)
    (hlne : l ≠ []) (hin : fc ∈ l) (hr : lookupRate s.rateCache fc d = none)
    (hq : s.memRates.lookup (memKey fc ("USD") d) = none) :
    getExchangeRate api today fc ("USD") d s = fetchRateFromApi api today fc ("USD") d s := by
  simp [getExchangeRate, hU, upperA_USD, hne,
    isCurrencySupported_memHit api fc s l hU hmem hlne hin, hr, hq]

def apiNet : Api := fun _ => ApiOutcome.network

def apiMal : Api := fun _ => ApiOutcome.malformed

def apiRetry : Api := fun n =>
  if n < 2 then ApiOutcome.network else ApiOutcome.rates [(("USD"), 13/10)]

def stEmpty : ConvState :=
  { rateCache := [], registry := [], memRates := [], memSupported := none,
    apiCalls := 0, sleeps := [] }

def stEur : ConvState :=
  { rateCache := [⟨("EUR"), 5, 11/10⟩], registry := [], memRates := [],
    memSupported := some [("EUR")], apiCalls := 0, sleeps := [] }

/-- C1: for a supported non-USD currency (supported here via the
ephemeral supported-currencies cache) and any date, if the durable rate
cache holds an entry for `(C, D)` then `get_exchange_rate` returns
exactly that cached rate with the state unchanged — in particular the
API-call counter is unchanged, so the upstream fetch path is never
invoked.  If the durable cache misses but the ephemeral cache holds a
non-zero rate, that rate is returned, again with no fetch; and only when
both caches miss does the call equal the upstream fetch
`_fetch_rate_from_api` — durable cache first, then ephemeral cache, then
upstream. -/
theorem c1_cache_precedence (api : Api) (today : Int) (fc : String) (d : Int)
    (s : ConvState) (l : List String)
    (hU : fc.upperA = fc) (hne : fc ≠ ("USD")) (hmem : s.memSupported = some l)
    (hlne : l ≠ []) (hin : fc ∈ l) :
    (∀ r : ℚ, lookupRate s.rateCache fc d = some r →
      getExchangeRate api today fc ("USD") d s = (some r, s)
      ∧ (getExchangeRate api today fc ("USD") d s).2.apiCalls = s.apiCalls)
    ∧ (∀ q : ℚ, lookupRate s.rateCache fc d = none →
        s.memRates.lookup (memKey fc ("USD") d) = some q → q ≠ 0 →
        getExchangeRate api today fc ("USD") d s = (some q, s)
        ∧ (getExchangeRate api today fc ("USD") d s).2.apiCalls = s.apiCalls)
    ∧ (lookupRate s.rateCache fc d = none →
        s.memRates.lookup (memKey fc ("USD") d) = none →
        getExchangeRate api today fc ("USD") d s = fetchRateFromApi api today fc ("USD") d s) := by
  refine ⟨?_, ?_, ?_⟩
  · intro r hr
    have e := getExchangeRate_durableHit api today fc d s l r hU hne hmem hlne hin hr
    exact ⟨e, by rw [e]⟩
  · intro q hr hq hq0
    have e := getExchangeRate_memRateHit api today fc d s l q hU hne hmem hlne hin hr hq hq0
    exact ⟨e, by rw [e]⟩
  · intro hr hq
    exact getExchangeRate_bothMiss api today fc d s l hU hne hmem hlne hin hr hq

/-- Witness for C1 at a concrete cached entry `('EUR', 5) ↦ 1.10`. -/
theorem c1_witness :
    getExchangeRate apiNet 0 ("EUR") ("USD") 5 stEur = (some (11/10), stEur)
    ∧ (getExchangeRate apiNet 0 ("EUR") ("USD") 5 stEur).2.apiCalls = stEur.apiCalls :=
  (c1_cache_precedence apiNet 0 ("EUR") 5 stEur [("EUR")] rfl (by decide) rfl (by decide)
    (by decide)).1 (11/10) rfl

/-- C10: for a supported non-USD currency and a date strictly after
today, if the durable cache already holds an entry for `(C, D)` then
`get_exchange_rate` returns that cached rate, not `none`: the
future-date rejection happens only on the upstream-fetch path, which is
reached only after both cache lookups miss (second conjunct: with both
caches missing the same call returns `none`). -/
theorem c10_future_cached (api : Api) (today : Int) (fc : String) (d : Int)
    (s : ConvState) (l : List String)
    (hU : fc.upperA = fc) (hne : fc ≠ ("USD")) (hmem : s.memSupported = some l)
    (hlne : l ≠ []) (hin : fc ∈ l) (hfut : d > today) :
    (∀ r : ℚ, lookupRate s.rateCache fc d = some r →
      getExchangeRate api today fc ("USD") d s = (some r, s)
      ∧ (getExchangeRate api today fc ("USD") d s).1 ≠ none)
    ∧ (lookupRate s.rateCache fc d = none →
        s.memRates.lookup (memKey fc ("USD") d) = none →
        getExchangeRate api today fc ("USD") d s = (none, s)) := by
  constructor
  · intro r hr
    have e := getExchangeRate_durableHit api today fc d s l r hU hne hmem hlne hin hr
    exact ⟨e, by rw [e]; simp⟩
  · intro hr hq
    have e := getExchangeRate_bothMiss api today fc d s l hU hne hmem hlne hin hr hq
    rw [e]
    simp [fetchRateFromApi, hfut]

/-- Witness for C10: cached `('EUR', 5) ↦ 1.10` is returned although the
date 5 is strictly after today 0. -/
theorem c10_witness :
    getExchangeRate apiNet 0 ("EUR") ("USD") 5 stEur = (some (11/10), stEur)
    ∧ (getExchangeRate apiNet 0 ("EUR") ("USD") 5 stEur).1 ≠ none :=
  (c10_future_cached apiNet 0 ("EUR") 5 stEur [("EUR")] rfl (by decide) rfl (by decide)
    (by decide) (by decide)).1 (11/10) rfl

/-- Counterexample to C5 as stated: the claim quantifies over every
currency code, but for the code `'USD'` and the future date 30 (today
0), `get_exchange_rate` returns `1.0`, not `None` — the `from == to`
short-circuit fires before any future-date check (and by C10 a cached
entry is likewise returned).  So "getRate returns None for every
currency code and future date" is false. -/
theorem c5_counterexample :
    ((0 : Int) < 30)
    ∧ getExchangeRate apiNet 0 ("USD") ("USD") 30 stEmpty = (some 1, stEmpty)
    ∧ (getExchangeRate apiNet 0 ("USD") ("USD") 30 stEmpty).1 ≠ none := by
  refine ⟨by decide, rfl, by decide⟩

/-- C5 (amended): the upstream fetch `_fetch_rate_from_api` rejects
every date strictly after today, returning `none` with the state —
hence the API-call counter — unchanged, so no network call is made; and
consequently `get_exchange_rate` returns `none` on such a date whenever
the lookup reaches the fetch path, i.e. for a supported non-USD
currency with no durable and no ephemeral cache entry for `(C, D)`. -/
theorem c5_future_rejected (api : Api) (today : Int) (f t : String) (d : Int) (s : ConvState) :
    (d > today → fetchRateFromApi api today f t d s = (none, s))
    ∧ (∀ (fc : String) (l : List String),
        fc.upperA = fc → fc ≠ ("USD") → s.memSupported = some l → l ≠ [] → fc ∈ l →
        lookupRate s.rateCache fc d = none →
        s.memRates.lookup (memKey fc ("USD") d) = none →
        d > today →
        getExchangeRate api today fc ("USD") d s = (none, s)) := by
  constructor
  · intro hfut
    simp [fetchRateFromApi, hfut]
  · intro fc l hU hne hmem hlne hin hr hq hfut
    have e := getExchangeRate_bothMiss api today fc d s l hU hne hmem hlne hin hr hq
    rw [e]
    simp [fetchRateFromApi, hfut]

/-- Witness for the amended C5: a supported currency with empty caches
and a future date resolves to `none` with the state unchanged. -/
theorem c5_witness :
    getExchangeRate apiNet 0 ("EUR") ("USD") 30 stEur = (none, stEur) :=
  (c5_future_rejected apiNet 0 ("EUR") ("USD") 30 stEur).2 ("EUR") [("EUR")]
    rfl (by decide) rfl (by decide) (by decide) rfl rfl (by decide)

def stEur85 : ConvState :=
  { rateCache := [⟨("EUR"), 5, 17/20⟩], registry := [], memRates := [],
    memSupported := some [("EUR")], apiCalls := 0, sleeps := [] }

def stEur125 : ConvState :=
  { rateCache := [⟨("EUR"), 5, 5/4⟩], registry := [], memRates := [],
    memSupported := some [("EUR")], apiCalls := 0, sleeps := [] }

lemma convertToUsd_spec (api : Api) (today : Int) (amount : ℚ) (currency : String) (d : Int)
    (s s2 : ConvState) (rate : ℚ)
    (hpos : 0 < amount) (hne : currency.upperA ≠ ("USD"))
    (hget : getExchangeRate api today currency.upperA ("USD") d s = (some rate, s2)) :
    convertToUsd api today amount currency d s
      = ((some (quantize2 (amount * rate)), some rate), s2) := by
  simp [convertToUsd, not_le.mpr hpos, hne, hget]

/-- C4: for every strictly positive amount and non-USD currency whose
rate resolves to `r`, `convert_to_usd` returns
`(quantize2 (amount * r), r)`, where `quantize2` is quantization to
exactly 2 decimal places with round-half-to-even; in particular
`100.00 * 1.10 = 110.00`, `1000.50 * 0.85 = 850.42` (the `.425` tie
rounds to even) and `50.75 * 1.25 = 63.44` (`1000.50 = 2001/2`,
`0.85 = 17/20`, `50.75 = 203/4`, `1.25 = 5/4`). -/
theorem c4_rounding :
    (∀ (api : Api) (today : Int) (amount : ℚ) (currency : String) (d : Int)
        (s s2 : ConvState) (rate : ℚ),
      0 < amount → currency.upperA ≠ ("USD") →
      getExchangeRate api today currency.upperA ("USD") d s = (some rate, s2) →
      convertToUsd api today amount currency d s
        = ((some (quantize2 (amount * rate)), some rate), s2))
    ∧ convertToUsd apiNet 0 100 ("EUR") 5 stEur = ((some 110, some (11/10)), stEur)
    ∧ convertToUsd apiNet 0 (2001/2) ("EUR") 5 stEur85
        = ((some (850.42), some (17/20)), stEur85)
    ∧ convertToUsd apiNet 0 (203/4) ("EUR") 5 stEur125
        = ((some (63.44), some (5/4)), stEur125) := by
  refine ⟨fun api today amount currency d s s2 rate hpos hne hget =>
    convertToUsd_spec api today amount currency d s s2 rate hpos hne hget, ?_, ?_, ?_⟩
  · rw [convertToUsd_spec apiNet 0 100 ("EUR") 5 stEur stEur (11/10)
      (by norm_num) (by decide) rfl]
    norm_num [quantize2, roundHalfEven]
  · rw [convertToUsd_spec apiNet 0 (2001/2) ("EUR") 5 stEur85 stEur85 (17/20)
      (by norm_num) (by decide) rfl]
    norm_num [quantize2, roundHalfEven]
  · rw [convertToUsd_spec apiNet 0 (203/4) ("EUR") 5 stEur125 stEur125 (5/4)
      (by norm_num) (by decide) rfl]
    norm_num [quantize2, roundHalfEven]

/-- Witness for C4's universal part at amount 7 and rate 1.10. -/
theorem c4_witness :
    convertToUsd apiNet 0 7 ("EUR") 5 stEur
      = ((some (quantize2 (7 * (11/10))), some (11/10)), stEur) :=
  (c4_rounding).1 apiNet 0 7 ("EUR") 5 stEur stEur (11/10) (by norm_num) (by decide) rfl

lemma registrySupported_cons (x : CurrencyRow) (l : List CurrencyRow) (c : String) :
    registrySupported (x :: l) c
      = if x.code == c then x.is_supported else registrySupported l c := by
  by_cases h : (x.code == c) = true
  · simp [registrySupported, List.find?_cons_of_pos _ h, h]
  · simp [registrySupported, List.find?_cons_of_neg _ h, h]

lemma registrySupported_markAll (reg : List CurrencyRow) (c : String) :
    registrySupported (reg.map (fun row => { row with is_supported := false })) c = false := by
  unfold registrySupported
  rw [List.find?_map]
  have hpg : ((fun row : CurrencyRow => row.code == c)
      ∘ (fun row : CurrencyRow => { row with is_supported := false }))
      = fun row : CurrencyRow => row.code == c := rfl
  rw [hpg]
  rcases reg.find? (fun row : CurrencyRow => row.code == c) with _ | w <;> rfl

lemma registrySupported_upsert (reg : List CurrencyRow) (code c : String) :
    registrySupported (upsertCurrency reg code) c
      = if c = code.upperA then true else registrySupported reg c := by
  unfold upsertCurrency registrySupported
  by_cases hany : (reg.any (fun row => row.code == code.upperA)) = true
  · rw [if_pos hany, List.find?_map]
    have hpg : ((fun row : CurrencyRow => row.code == c)
        ∘ (fun row : CurrencyRow =>
            if row.code == code.upperA
            then { row with is_supported := true, name := getCurrencyName code } else row))
        = fun row : CurrencyRow => row.code == c := by
      funext row
      simp only [Function.comp]
      split <;> rfl
    rw [hpg]
    rcases hf : reg.find? (fun row : CurrencyRow => row.code == c) with _ | w
    · by_cases hc : c = code.upperA
      · subst hc
        obtain ⟨w, hw, hwc⟩ := List.any_eq_true.mp hany
        rw [List.find?_eq_none] at hf
        exact absurd hwc (hf w hw)
      · simp [hc]
    · have hwc := List.find?_some hf
      rw [beq_iff_eq] at hwc
      by_cases hc : c = code.upperA
      · have hcu : (w.code == code.upperA) = true := by rw [beq_iff_eq, hwc, hc]
        simp [hcu, hc]
        rw [if_pos (hwc.trans hc)]
      · have hcu : (w.code == code.upperA) = false := by
          rw [beq_eq_false_iff_ne, hwc]
          exact hc
        simp [hcu, hc]
        rw [if_neg (show ¬ w.code = code.upperA from by rw [hwc]; exact hc)]
  · rw [if_neg hany, List.find?_append]
    by_cases hc : c = code.upperA
    · subst hc
      have hfn : reg.find? (fun row : CurrencyRow => row.code == code.upperA) = none := by
        rw [List.find?_eq_none]
        intro x hx hpx
        exact hany (List.any_eq_true.mpr ⟨x, hx, hpx⟩)
      simp [hfn]
    · have hnew : (([⟨code.upperA, getCurrencyName code, true⟩] :
          List CurrencyRow).find? (fun row : CurrencyRow => row.code == c)) = none := by
        rw [List.find?_eq_none]
        intro x hx
        rcases List.mem_singleton.mp hx with rfl
        simp [beq_eq_false_iff_ne]
        exact fun h => hc h.symm
      rw [hnew]
      rcases hf : reg.find? (fun row : CurrencyRow => row.code == c) with _ | w <;>
        simp [hc]

lemma registrySupported_foldl_upsert (codes : List String) :
    ∀ (reg : List CurrencyRow) (c : String),
      registrySupported (codes.foldl upsertCurrency reg) c = true
        ↔ (registrySupported reg c = true ∨ ∃ code ∈ codes, code.upperA = c) := by
  induction codes with
  | nil => intro reg c; simp
  | cons code rest ih =>
    intro reg c
    rw [List.foldl_cons, ih, registrySupported_upsert]
    by_cases hc : c = code.upperA
    · constructor
      · intro _
        exact Or.inr ⟨code, List.mem_cons_self code rest, hc.symm⟩
      · intro _
        simp [hc]
    · rw [if_neg hc]
      constructor
      · rintro (h | ⟨x, hx, hxc⟩)
        · exact Or.inl h
        · exact Or.inr ⟨x, List.mem_cons_of_mem _ hx, hxc⟩
      · rintro (h | ⟨x, hx, hxc⟩)
        · exact Or.inl h
        · rcases List.mem_cons.mp hx with rfl | hx2
          · exact absurd hxc.symm hc
          · exact Or.inr ⟨x, hx2, hxc⟩

lemma registrySupported_update (reg : List CurrencyRow) (codes : List String) (c : String) :
    registrySupported (updateSupportedCurrencies reg codes) c = true
      ↔ ∃ code ∈ codes, code.upperA = c := by
  unfold updateSupportedCurrencies
  rw [registrySupported_foldl_upsert]
  simp [registrySupported_markAll]

lemma registrySupported_iff_exists (reg : List CurrencyRow) (c : String)
    (hnd : (reg.map (fun row => row.code)).Nodup) :
    registrySupported reg c = true
      ↔ ∃ row ∈ reg, row.code = c ∧ row.is_supported = true := by
  induction reg with
  | nil => simp [registrySupported]
  | cons r rest ih =>
    rw [List.map_cons, List.nodup_cons] at hnd
    obtain ⟨hr, hrest⟩ := hnd
    rw [registrySupported_cons]
    by_cases hc : (r.code == c) = true
    · rw [beq_iff_eq] at hc
      subst hc
      rw [if_pos (by rw [beq_iff_eq])]
      constructor
      · intro hs
        exact ⟨r, List.mem_cons_self r rest, rfl, hs⟩
      · rintro ⟨row, hrow, hcode, hsup⟩
        rcases List.mem_cons.mp hrow with rfl | hrow2
        · exact hsup
        · exact absurd (hcode ▸ List.mem_map_of_mem (fun row => row.code) hrow2) hr
    · rw [if_neg hc, ih hrest]
      rw [beq_iff_eq] at hc
      constructor
      · rintro ⟨row, hrow, hcode, hsup⟩
        exact ⟨row, List.mem_cons_of_mem _ hrow, hcode, hsup⟩
      · rintro ⟨row, hrow, hcode, hsup⟩
        rcases List.mem_cons.mp hrow with rfl | hrow2
        · exact absurd hcode hc
        · exact ⟨row, hrow2, hcode, hsup⟩

lemma mem_getSupportedCodes_iff (reg : List CurrencyRow) (c : String)
    (hnd : (reg.map (fun row => row.code)).Nodup) :
    c ∈ getSupportedCodes reg ↔ registrySupported reg c = true := by
  rw [registrySupported_iff_exists reg c hnd]
  simp only [getSupportedCodes, List.mem_map, List.mem_filter]
  constructor
  · rintro ⟨row, ⟨hrow, hsup⟩, hcode⟩
    exact ⟨row, hrow, hcode, hsup⟩
  · rintro ⟨row, hrow, hcode, hsup⟩
    exact ⟨row, ⟨hrow, hsup⟩, hcode⟩

lemma fetchSupported_failure (api : Api) (s : ConvState)
    (h : api s.apiCalls = ApiOutcome.network ∨ api s.apiCalls = ApiOutcome.malformed) :
    fetchSupportedCurrencies api s
      = (DEFAULT_SUPPORTED_CURRENCIES,
         { s with apiCalls := s.apiCalls + 1,
                  registry := updateSupportedCurrencies s.registry DEFAULT_SUPPORTED_CURRENCIES,
                  memSupported := some DEFAULT_SUPPORTED_CURRENCIES }) := by
  rcases h with h | h <;> simp [fetchSupportedCurrencies, h]

lemma default_codes_upper : ∀ c ∈ DEFAULT_SUPPORTED_CURRENCIES, c.upperA = c := by
  decide

/-- C6: when the upstream fetch inside `get_supported_currencies` fails
(network or parse error), the call still returns — the embedded function
is total, so nothing is raised to the caller — with the hardcoded
`DEFAULT_SUPPORTED_CURRENCIES` list of 40 ISO codes; that fallback is
persisted to the durable registry (every default code is recorded as
supported) and stored in the ephemeral cache, so an immediately
following call returns the same list with the state unchanged, hence
without refetching; the same holds when the fetch is reached with empty
caches on the `refresh=False` path. -/
theorem c6_fallback (api : Api) (s : ConvState)
    (h : api s.apiCalls = ApiOutcome.network ∨ api s.apiCalls = ApiOutcome.malformed) :
    (getSupportedCurrencies api true s).1 = DEFAULT_SUPPORTED_CURRENCIES
    ∧ (getSupportedCurrencies api true s).2.memSupported = some DEFAULT_SUPPORTED_CURRENCIES
    ∧ (getSupportedCurrencies api true s).2.apiCalls = s.apiCalls + 1
    ∧ (∀ c ∈ DEFAULT_SUPPORTED_CURRENCIES,
        registrySupported (getSupportedCurrencies api true s).2.registry c = true)
    ∧ (getSupportedCurrencies api true s).2.rateCache = s.rateCache
    ∧ getSupportedCurrencies api false (getSupportedCurrencies api true s).2
        = (DEFAULT_SUPPORTED_CURRENCIES, (getSupportedCurrencies api true s).2)
    ∧ (s.memSupported = none → getSupportedCodes s.registry = [] →
        getSupportedCurrencies api false s = getSupportedCurrencies api true s) := by
  have e : getSupportedCurrencies api true s = fetchSupportedCurrencies api s := rfl
  rw [e, fetchSupported_failure api s h]
  refine ⟨rfl, rfl, rfl, ?_, rfl, ?_, ?_⟩
  · intro c hc
    rw [registrySupported_update]
    exact ⟨c, hc, default_codes_upper c hc⟩
  · exact getSupportedCurrencies_memHit api _ DEFAULT_SUPPORTED_CURRENCIES rfl (by decide)
  · intro hmem hdb
    have e2 : getSupportedCurrencies api false s = fetchSupportedCurrencies api s := by
      simp [getSupportedCurrencies, getSupportedCurrenciesNoRefresh, hmem, hdb]
    rw [e2, fetchSupported_failure api s h]

/-- Witness for C6 with a constantly failing upstream and empty state. -/
theorem c6_witness :
    (getSupportedCurrencies apiNet true stEmpty).1 = DEFAULT_SUPPORTED_CURRENCIES
    ∧ (getSupportedCurrencies apiNet true stEmpty).2.memSupported
        = some DEFAULT_SUPPORTED_CURRENCIES
    ∧ (getSupportedCurrencies apiNet true stEmpty).2.apiCalls = stEmpty.apiCalls + 1 := by
  have hx := c6_fallback apiNet stEmpty (Or.inl rfl)
  exact ⟨hx.1, hx.2.1, hx.2.2.1⟩

lemma contains_iff (l : List String) (a : String) : l.contains a = true ↔ a ∈ l :=
  List.elem_iff

/-- C7: the converter's `is_currency_supported` answers `true` for the
code `'USD'` in any letter case on every state — even when the registry
has no USD row or marks USD unsupported; for any other code, with the
ephemeral supported-currencies cache empty, registry codes unique (the
schema's unique constraint) and upstream rate keys uppercase (ISO
form), the answer is `true` iff the code, uppercased, is recorded as
supported in the registry as left by the call. -/
theorem c7_registry (api : Api) (s : ConvState) (code : String) :
    (code.upperA = ("USD") → isCurrencySupported api code s = (true, s))
    ∧ (code.upperA ≠ ("USD") → s.memSupported = none →
        (s.registry.map (fun row => row.code)).Nodup →
        (∀ (n : Nat) (r : List (String × ℚ)), api n = ApiOutcome.rates r →
          ∀ p ∈ r, (p.1).upperA = p.1) →
        ((isCurrencySupported api code s).1 = true
          ↔ registrySupported (isCurrencySupported api code s).2.registry code.upperA
              = true)) := by
  constructor
  · intro h
    simp [isCurrencySupported, h]
  · intro hne hmem hnd hup
    have e0 : isCurrencySupported api code s
        = ((getSupportedCurrencies api false s).1.contains code.upperA,
           (getSupportedCurrencies api false s).2) := by
      simp [isCurrencySupported, hne]
    rw [e0]
    by_cases hdb : getSupportedCodes s.registry = []
    · have e1 : getSupportedCurrencies api false s = fetchSupportedCurrencies api s := by
        simp [getSupportedCurrencies, getSupportedCurrenciesNoRefresh, hmem, hdb]
      rw [e1]
      rcases hout : api s.apiCalls with _ | _ | r
      · rw [fetchSupported_failure api s (Or.inl hout)]
        rw [contains_iff, registrySupported_update]
        constructor
        · intro hc
          exact ⟨code.upperA, hc, default_codes_upper _ hc⟩
        · rintro ⟨x, hx, hxc⟩
          have hxx : x = code.upperA := (default_codes_upper x hx).symm.trans hxc
          exact hxx ▸ hx
      · rw [fetchSupported_failure api s (Or.inr hout)]
        rw [contains_iff, registrySupported_update]
        constructor
        · intro hc
          exact ⟨code.upperA, hc, default_codes_upper _ hc⟩
        · rintro ⟨x, hx, hxc⟩
          have hxx : x = code.upperA := (default_codes_upper x hx).symm.trans hxc
          exact hxx ▸ hx
      · have e2 : fetchSupportedCurrencies api s
            = (r.map (fun p => p.1) ++ [("USD")],
               { s with apiCalls := s.apiCalls + 1,
                        registry := updateSupportedCurrencies s.registry
                          (r.map (fun p => p.1) ++ [("USD")]),
                        memSupported := some (r.map (fun p => p.1) ++ [("USD")]) }) := by
          simp [fetchSupportedCurrencies, hout]
        rw [e2]
        rw [contains_iff, registrySupported_update]
        constructor
        · intro hc
          rcases List.mem_append.mp hc with hc1 | hc2
          · refine ⟨code.upperA, List.mem_append_left _ hc1, ?_⟩
            obtain ⟨p, hp, hpc⟩ := List.mem_map.mp hc1
            rw [← hpc]
            exact hup s.apiCalls r hout p hp
          · exact absurd (List.mem_singleton.mp hc2) hne
        · rintro ⟨x, hx, hxc⟩
          rcases List.mem_append.mp hx with hx1 | hx2
          · obtain ⟨p, hp, hpc⟩ := List.mem_map.mp hx1
            have hxu : x.upperA = x := by rw [← hpc]; exact hup s.apiCalls r hout p hp
            have : x = code.upperA := hxu.symm.trans hxc
            exact this ▸ hx
          · rcases List.mem_singleton.mp hx2 with rfl
            exact absurd (upperA_USD.symm.trans hxc).symm hne
    · have e1 : getSupportedCurrencies api false s
          = (getSupportedCodes s.registry,
             { s with memSupported := some (getSupportedCodes s.registry) }) := by
        simp [getSupportedCurrencies, getSupportedCurrenciesNoRefresh, hmem, hdb]
      rw [e1]
      rw [contains_iff]
      exact mem_getSupportedCodes_iff s.registry code.upperA hnd

def stReg : ConvState :=
  { rateCache := [], registry := [⟨("EUR"), ("Euro"), true⟩], memRates := [],
    memSupported := none, apiCalls := 0, sleeps := [] }

/-- Witness for C7: `'usd'` is supported on a registry without a USD
row, and `'eur'` satisfies the recorded-as-supported equivalence. -/
theorem c7_witness :
    (isCurrencySupported apiNet ("usd") stReg = (true, stReg))
    ∧ ((isCurrencySupported apiNet ("eur") stReg).1 = true
        ↔ registrySupported (isCurrencySupported apiNet ("eur") stReg).2.registry
            (("eur" : String).upperA) = true) := by
  constructor
  · exact (c7_registry apiNet stReg ("usd")).1 rfl
  · exact (c7_registry apiNet stReg ("eur")).2 (by decide) rfl (by decide)
      (fun n r h => by cases h)

/-- Witness for C2: an upstream that fails twice then succeeds yields
the successful rate after exactly 3 calls and backoff sleeps 1, 2. -/
theorem c2_witness :
    (fetchRateFromApi apiRetry 0 ("EUR") ("USD") 0 stEmpty).1 = some (13/10)
    ∧ (fetchRateFromApi apiRetry 0 ("EUR") ("USD") 0 stEmpty).2.apiCalls
        = stEmpty.apiCalls + 3
    ∧ (fetchRateFromApi apiRetry 0 ("EUR") ("USD") 0 stEmpty).2.sleeps
        = stEmpty.sleeps ++ [2 ^ 0, 2 ^ 1] :=
  ((c2_retry apiRetry 0 ("EUR") ("USD") 0 stEmpty).2 (by decide) rfl rfl).1
    [(("USD"), 13/10)] (13/10) rfl rfl

/-- Witness for C3: a malformed body on the first attempt yields `none`
after exactly one call. -/
theorem c3_witness :
    (fetchRateFromApi apiMal 0 ("EUR") ("USD") 0 stEmpty).1 = none
    ∧ (fetchRateFromApi apiMal 0 ("EUR") ("USD") 0 stEmpty).2.apiCalls
        = stEmpty.apiCalls + 0 + 1 :=
  c3_terminal apiMal 0 ("EUR") ("USD") 0 stEmpty 0 (by decide) (by decide)
    (fun i hi => absurd hi (Nat.not_lt_zero i)) (Or.inl rfl)
